import Mathlib

/-!
Shallow embedding of `src/combined_search.py`: a Slack slash-command handler
that fans a query out to Slack, Jira and Confluence search APIs, aggregates
the per-service results, summarizes them and formats one reply.

Modelling conventions:
* Python's untyped JSON-ish dicts/lists are embedded as the inductive `J`.
  JSON numbers are modelled as integers (no claim involves floats).
* A raised Python exception (`AttributeError`, `TypeError`,
  `requests.exceptions.JSONDecodeError`, ...) is modelled as `Except.error ()`;
  the model does not distinguish exception classes, only raised vs. returned.
* The network is an explicit deterministic oracle `net : HttpCall → HttpResponse`;
  an `HttpResponse` carries the status code and `Option J` body (`none` models
  a body that is not valid JSON, so that `response.json()` raises).
* `tokenize` follows Python's `re.findall(r"\w+", text, re.UNICODE)` as maximal
  runs of word characters; `wordChar` is exact on ASCII and approximates the
  Unicode `\w` class by treating every non-ASCII character as a word character
  (no Unicode category tables are available; all claims use ASCII corpora).
  Likewise `pyLower` lower-cases character-wise with `Char.toLower` (ASCII
  only), matching `str.lower` on the ASCII corpora the claims use.
* Python's `sorted(..., key=lambda x: x[1], reverse=True)` is a stable sort by
  descending count; `sortDesc` is a stable insertion sort producing the same
  (unique) stable descending permutation.
-/

namespace CombinedSearch

/-- Untyped Python/JSON value, as handled by the handler's dict accesses. -/
inductive J : Type where
  | null : J
  | bool : Bool → J
  | num : Int → J
  | str : String → J
  | arr : List J → J
  | obj : List (String × J) → J

/-- First-match association lookup, i.e. Python dict indexing (dicts coming
from JSON have unique keys, so first-match agrees with dict semantics). -/
def assocGet : List (String × J) → String → Option J
  | [], _ => none
  | (k, v) :: kvs, key => if k = key then some v else assocGet kvs key

/-- Python truthiness (`if x:`) for the values of `J`. -/
def J.truthy : J → Bool
  | .null => false
  | .bool b => b
  | .num n => n != 0
  | .str s => s != ""
  | .arr xs => !xs.isEmpty
  | .obj kvs => !kvs.isEmpty

/-- Python `d.get(key, default)`: raises `AttributeError` on a non-dict. -/
def pyGet (o : J) (key : String) (default : J) : Except Unit J :=
  match o with
  | .obj kvs => .ok ((assocGet kvs key).getD default)
  | _ => .error ()

/-- Python `d.get(key)` (default `None`). -/
def pyGetOpt (o : J) (key : String) : Except Unit J :=
  pyGet o key J.null

mutual
/-- Python `repr` of a `J` value (string escaping inside reprs is not
reproduced; no claim depends on it). -/
def J.pyRepr : J → String
  | .null => "None"
  | .bool b => if b then "True" else "False"
  | .num n => toString n
  | .str s => "\x27" ++ s ++ "\x27"
  | .arr xs => "[" ++ String.intercalate ", " (reprList xs) ++ "]"
  | .obj kvs => "\x7b" ++ String.intercalate ", " (reprPairs kvs) ++ "\x7d"

/-- `repr` of each element of a JSON array. -/
def reprList : List J → List String
  | [] => []
  | x :: xs => x.pyRepr :: reprList xs

/-- `repr` of each `key: value` entry of a JSON object. -/
def reprPairs : List (String × J) → List String
  | [] => []
  | (k, v) :: kvs => ("\x27" ++ k ++ "\x27: " ++ v.pyRepr) :: reprPairs kvs
end

/-- Python `str(x)` as used by f-string interpolation. -/
def J.pyStr : J → String
  | .str s => s
  | v => v.pyRepr

/-- Python iteration `for x in v`: lists yield elements, strings yield
1-character strings, dicts yield their keys, everything else raises
`TypeError`. -/
def J.iter : J → Except Unit (List J)
  | .arr xs => .ok xs
  | .str s => .ok (s.toList.map fun c => J.str (String.mk [c]))
  | .obj kvs => .ok (kvs.map fun kv => J.str kv.1)
  | _ => .error ()

/-- The Python value must be a `str` (e.g. for `" ".join`), else `TypeError`. -/
def asStr : J → Except Unit String
  | .str s => .ok s
  | _ => .error ()

/-! ## HTTP model -/

/-- One outbound `requests.get` call, with its URL, query parameters
(`requests` stringifies the integer caps, hence `String` values), headers,
optional basic-auth pair and timeout in seconds. -/
structure HttpCall where
  url : String
  params : List (String × String)
  headers : List (String × String)
  auth : Option (String × String)
  timeout : Nat
  deriving DecidableEq, Repr

/-- An HTTP response: its status code and its body, `none` when the body is
not valid JSON (so `response.json()` raises). -/
structure HttpResponse where
  status_code : Nat
  body : Option J

/-- `response.ok` from `requests`: true iff the status code is below 400. -/
def HttpResponse.ok (r : HttpResponse) : Bool :=
  r.status_code < 400

/-- `response.json()`: the parsed body, raising on invalid JSON. -/
def responseJson (r : HttpResponse) : Except Unit J :=
  match r.body with
  | some j => .ok j
  | none => .error ()

/-! ## Service search adapters (`search_slack`, `search_jira`,
`search_confluence`).  Each adapter is split into the request it issues
(`*Call`) and the response handling (`*_body`, the code after
`requests.get` returns). -/

/-- The request `search_slack` issues. -/
def slackCall (query token : String) : HttpCall :=
  { url := "https://slack.com/api/search.messages"
    params := [("query", query), ("count", "5")]
    headers := [("Authorization", "Bearer " ++ token)]
    auth := none
    timeout := 10 }

/-- Response handling of `search_slack` (lines 29-36): requires `response.ok`
and a truthy service-reported `"ok"` flag, then extracts
`messages.matches` (default `[]`); otherwise returns `[]`. -/
def search_slack_body (resp : HttpResponse) : Except Unit J := do
  if resp.ok then
    let j ← responseJson resp
    let okFlag ← pyGetOpt j "ok"
    if okFlag.truthy then
      let j2 ← responseJson resp
      let msgs ← pyGet j2 "messages" (J.obj [])
      pyGet msgs "matches" (J.arr [])
    else
      pure (J.arr [])
  else
    pure (J.arr [])

/-- `search_slack(query, token)` against the network oracle `net`. -/
def search_slack (query token : String) (net : HttpCall → HttpResponse) :
    Except Unit J :=
  search_slack_body (net (slackCall query token))

/-- The JQL expression `search_jira` builds. -/
def jiraJql (query : String) : String :=
  "text ~ \"" ++ query ++ "\" order by updated desc"

/-- The request `search_jira` issues. -/
def jiraCall (query base_url email api_token : String) : HttpCall :=
  { url := base_url ++ "/rest/api/2/search"
    params := [("jql", jiraJql query), ("maxResults", "5")]
    headers := []
    auth := some (email, api_token)
    timeout := 10 }

/-- Response handling of `search_jira` (lines 49-56): on `response.ok`
extracts `issues` (default `[]`), otherwise returns `[]`. -/
def search_jira_body (resp : HttpResponse) : Except Unit J := do
  if resp.ok then
    let j ← responseJson resp
    pyGet j "issues" (J.arr [])
  else
    pure (J.arr [])

/-- `search_jira(query, base_url, email, api_token)` against `net`. -/
def search_jira (query base_url email api_token : String)
    (net : HttpCall → HttpResponse) : Except Unit J :=
  search_jira_body (net (jiraCall query base_url email api_token))

/-- The request `search_confluence` issues. -/
def confluenceCall (query base_url email api_token : String) : HttpCall :=
  { url := base_url ++ "/wiki/rest/api/search"
    params := [("cql", "text ~ \"" ++ query ++ "\""), ("limit", "5")]
    headers := []
    auth := some (email, api_token)
    timeout := 10 }

/-- Response handling of `search_confluence` (lines 68-75): on `response.ok`
extracts `results` (default `[]`), otherwise returns `[]`. -/
def search_confluence_body (resp : HttpResponse) : Except Unit J := do
  if resp.ok then
    let j ← responseJson resp
    pyGet j "results" (J.arr [])
  else
    pure (J.arr [])

/-- `search_confluence(query, base_url, email, api_token)` against `net`. -/
def search_confluence (query base_url email api_token : String)
    (net : HttpCall → HttpResponse) : Except Unit J :=
  search_confluence_body (net (confluenceCall query base_url email api_token))

/-! ## Result groups -/

/-- One `{"service": ..., "items": ...}` dict built by `handle_search`.
The handler always populates both keys, so the group is typed; `items` stays
an untyped `J` (it is whatever the adapter returned). -/
structure Group where
  service : String
  items : J

/-! ## Summarizer (`summarize_results`) -/

/-- The corpus text contributed by one item, by service: Slack message
`text`, Jira `fields.summary`, Confluence `title`; items of any other
service name are skipped.  A non-`str` extracted value is an error: in
Python it would make the later `" ".join(corpus)` raise `TypeError`, and
this model surfaces that (indistinguishable) failure at extraction time. -/
def extractItemText (service : String) (item : J) : Except Unit (Option String) :=
  if service = "Slack" then do
    let t ← pyGet item "text" (J.str "")
    let s ← asStr t
    pure (some s)
  else if service = "Jira" then do
    let f ← pyGet item "fields" (J.obj [])
    let t ← pyGet f "summary" (J.str "")
    let s ← asStr t
    pure (some s)
  else if service = "Confluence" then do
    let t ← pyGet item "title" (J.str "")
    let s ← asStr t
    pure (some s)
  else
    pure none

/-- The corpus texts of one group, iterating `service.get("items", [])`. -/
def extractGroupTexts (g : Group) : Except Unit (List String) := do
  let items ← g.items.iter
  let opts ← items.mapM (extractItemText g.service)
  pure (opts.filterMap id)

/-- The corpus loop of `summarize_results` (lines 80-88). -/
def extractTexts (gs : List Group) : Except Unit (List String) := do
  let chunks ← gs.mapM extractGroupTexts
  pure chunks.flatten

/-- `str.lower()`: per-character lower-casing (the same function core
Lean's `String.toLower` computes, restated structurally so that it
evaluates by kernel reduction; ASCII-exact, see the file header for the
non-ASCII approximation). -/
def pyLower (s : String) : String :=
  String.mk (s.data.map Char.toLower)

/-- Word character for the `re.findall(r"\w+", ...)` tokenizer: exact on
ASCII (alphanumerics and underscore); every non-ASCII character is treated
as a word character, approximating Unicode `\w` (see file header). -/
def wordChar (c : Char) : Bool :=
  c.isAlphanum || c = '_' || 127 < c.toNat

/-- Accumulator pass of the tokenizer: `acc` is the current (reversed) run
of word characters. -/
def tokensAux : List Char → List Char → List String
  | [], acc => if acc.isEmpty then [] else [String.mk acc.reverse]
  | c :: cs, acc =>
    if wordChar c then tokensAux cs (c :: acc)
    else if acc.isEmpty then tokensAux cs []
    else String.mk acc.reverse :: tokensAux cs []

/-- `re.findall(r"\w+", s)`: the maximal runs of word characters of `s`. -/
def tokenize (s : String) : List String :=
  tokensAux s.toList []

/-- The fixed stop-word set of `summarize_results` (lines 94-114). -/
def stopWords : List String :=
  ["the", "and", "for", "with", "this", "that", "are", "you", "your",
   "have", "has", "from", "but", "not", "use", "para", "los", "las"]

/-- The `continue` guard of the frequency loop: stop-words and tokens
shorter than 3 characters are skipped. -/
def skipTok (t : String) : Bool :=
  stopWords.contains t || t.length < 3

/-- `freq[tok] = freq.get(tok, 0) + 1` on an insertion-ordered association
list: an existing key is bumped in place, a new key is appended. -/
def bump : List (String × Nat) → String → List (String × Nat)
  | [], tok => [(tok, 1)]
  | (k, v) :: rest, tok =>
    if k = tok then (k, v + 1) :: rest else (k, v) :: bump rest tok

/-- The frequency loop of `summarize_results` (lines 115-119), mirroring the
Python `for tok in tokens` fold over the insertion-ordered dict `freq`. -/
def freqLoop (acc : List (String × Nat)) : List String → List (String × Nat)
  | [] => acc
  | t :: ts => freqLoop (if skipTok t then acc else bump acc t) ts

/-- The `freq` dict built from the token list. -/
def buildFreq (toks : List String) : List (String × Nat) :=
  freqLoop [] toks

/-- Stable insertion (descending by count): the inserted pair goes before
the first pair whose count is not larger, so earlier-inserted pairs with an
equal count stay in front. -/
def insertDesc (p : String × Nat) : List (String × Nat) → List (String × Nat)
  | [] => [p]
  | q :: qs => if p.2 < q.2 then q :: insertDesc p qs else p :: q :: qs

/-- Stable sort by descending count, the behaviour of Python
`sorted(freq.items(), key=lambda x: x[1], reverse=True)` (Python's sort is
stable also under `reverse=True`; stable sorts are unique, so this
insertion sort computes the same list). -/
def sortDesc : List (String × Nat) → List (String × Nat)
  | [] => []
  | p :: ps => insertDesc p (sortDesc ps)

/-- `top_words` (line 124): keys of the five most frequent tokens. -/
def topWords (toks : List String) : List String :=
  ((sortDesc (buildFreq toks)).take 5).map (·.1)

/-- `summarize_results(results)` (lines 78-125). -/
def summarize_results (gs : List Group) : Except Unit String := do
  let corpus ← extractTexts gs
  let toks := tokenize (pyLower (String.intercalate " " corpus))
  let freq := buildFreq toks
  if freq.isEmpty then
    pure ""
  else
    pure ("Top topics: " ++ String.intercalate ", " (topWords toks) ++ ".")

/-! ## Summarizer analysis helpers (spec-level views of the `freq` dict) -/

/-- `freq.get(w, 0)`: the count stored for `w` (0 when absent). -/
def lookupNat : List (String × Nat) → String → Nat
  | [], _ => 0
  | (k, v) :: rest, w => if k = w then v else lookupNat rest w

/-- `freqLoop` without its skip guard (the loop over pre-filtered tokens). -/
def freqAll (acc : List (String × Nat)) : List String → List (String × Nat)
  | [] => acc
  | t :: ts => freqAll (bump acc t) ts

/-- The first occurrences of the elements of a list, skipping keys already
seen. -/
def firstOccursAux (seen : List String) : List String → List String
  | [] => []
  | t :: ts =>
    if t ∈ seen then firstOccursAux seen ts
    else t :: firstOccursAux (t :: seen) ts

/-- The elements of a list in order of first occurrence. -/
def firstOccurs (l : List String) : List String :=
  firstOccursAux [] l

/-! ## Environment configuration -/

/-- The seven environment variables read by `handle_search`
(`os.environ.get` yields `none` when the variable is unset). -/
structure Env where
  slack_token : Option String
  jira_base : Option String
  jira_email : Option String
  jira_token : Option String
  conf_base : Option String
  conf_email : Option String
  conf_token : Option String
  deriving DecidableEq, Repr

/-- Python truthiness of an `os.environ.get` result: set and non-empty. -/
def optTruthy : Option String → Bool
  | none => false
  | some s => s != ""

/-- Slack is queried iff its token is set and non-empty (line 158). -/
def slackConfigured (env : Env) : Bool :=
  optTruthy env.slack_token

/-- Jira is queried iff base URL, email and API token are all set and
non-empty (line 162). -/
def jiraConfigured (env : Env) : Bool :=
  optTruthy env.jira_base && optTruthy env.jira_email && optTruthy env.jira_token

/-- Confluence is queried iff base URL, email and API token are all set and
non-empty (line 166). -/
def confConfigured (env : Env) : Bool :=
  optTruthy env.conf_base && optTruthy env.conf_email && optTruthy env.conf_token

/-- The service names of the groups the handler will build, in the fixed
checking order Slack, Jira, Confluence. -/
def configuredServices (env : Env) : List String :=
  (if slackConfigured env then ["Slack"] else []) ++
    (if jiraConfigured env then ["Jira"] else []) ++
      (if confConfigured env then ["Confluence"] else [])

/-! ## Aggregation (lines 156-168) -/

/-- Lines 158-160: query Slack and append its group when configured.
Returns the appended groups and the HTTP calls issued. -/
def slackStep (env : Env) (query : String) (net : HttpCall → HttpResponse) :
    Except Unit (List Group × List HttpCall) :=
  match env.slack_token with
  | none => .ok ([], [])
  | some t =>
    if t = "" then .ok ([], [])
    else (search_slack query t net).map
      fun items => ([⟨"Slack", items⟩], [slackCall query t])

/-- Lines 162-164: query Jira and append its group when configured. -/
def jiraStep (env : Env) (query : String) (net : HttpCall → HttpResponse) :
    Except Unit (List Group × List HttpCall) :=
  match env.jira_base, env.jira_email, env.jira_token with
  | some b, some e, some t =>
    if b = "" ∨ e = "" ∨ t = "" then .ok ([], [])
    else (search_jira query b e t net).map
      fun items => ([⟨"Jira", items⟩], [jiraCall query b e t])
  | _, _, _ => .ok ([], [])

/-- Lines 166-168: query Confluence and append its group when configured. -/
def confStep (env : Env) (query : String) (net : HttpCall → HttpResponse) :
    Except Unit (List Group × List HttpCall) :=
  match env.conf_base, env.conf_email, env.conf_token with
  | some b, some e, some t =>
    if b = "" ∨ e = "" ∨ t = "" then .ok ([], [])
    else (search_confluence query b e t net).map
      fun items => ([⟨"Confluence", items⟩], [confluenceCall query b e t])
  | _, _, _ => .ok ([], [])

/-- The `results` list of lines 156-168 together with the HTTP calls
issued while building it.  An adapter exception aborts the remaining
services, as in Python. -/
def aggregate (env : Env) (query : String) (net : HttpCall → HttpResponse) :
    Except Unit (List Group × List HttpCall) := do
  let s ← slackStep env query net
  let jr ← jiraStep env query net
  let c ← confStep env query net
  pure (s.1 ++ jr.1 ++ c.1, s.2 ++ jr.2 ++ c.2)

/-! ## Reply formatter (lines 175-199) -/

/-- Rendering of an environment value inside an f-string: an unset
variable prints as `None`. -/
def optBase : Option String → String
  | none => "None"
  | some s => s

/-- The `\t• <link|text>` bullet line. -/
def bulletLine (link text : String) : String :=
  "\t• <" ++ link ++ "|" ++ text ++ ">"

/-- One item's bullet (lines 182-193), by service.  For a service name
other than the three known ones Python would hit the f-string with `text`
and `link` unbound (a `NameError` on the first such group); the model
raises there too, and does not reproduce stale bindings carried over from
an earlier iteration of the loop (every claim constrains the service names
to the three the aggregator produces). -/
def renderItem (service : String) (jira_base conf_base : Option String)
    (item : J) : Except Unit String :=
  if service = "Slack" then do
    let text ← pyGet item "text" (J.str "(no text)")
    let link ← pyGet item "permalink" (J.str "")
    pure (bulletLine link.pyStr text.pyStr)
  else if service = "Jira" then do
    let key ← pyGetOpt item "key"
    let fields ← pyGet item "fields" (J.obj [])
    let text ← pyGet fields "summary" (J.str "")
    let link := if key.truthy then optBase jira_base ++ "/browse/" ++ key.pyStr else ""
    pure (bulletLine link text.pyStr)
  else if service = "Confluence" then do
    let text ← pyGet item "title" (J.str "")
    let urlCond ← pyGetOpt item "url"
    let urlVal ← pyGet item "url" (J.str "")
    let link := if urlCond.truthy then optBase conf_base ++ urlVal.pyStr else ""
    pure (bulletLine link text.pyStr)
  else
    .error ()

/-- The lines a single group contributes (lines 177-194): the bold service
header, then either the no-results bullet or one bullet per item, then a
blank line. -/
def groupLines (jira_base conf_base : Option String) (g : Group) :
    Except Unit (List String) :=
  if g.items.truthy then do
    let items ← g.items.iter
    let bullets ← items.mapM (renderItem g.service jira_base conf_base)
    pure (("*" ++ g.service ++ "*:") :: (bullets ++ [""]))
  else
    pure [("*" ++ g.service ++ "*:"), "\t- No results found.", ""]

/-- `message_lines` before the summary is appended (lines 175-194). -/
def buildMessageLines (query : String) (jira_base conf_base : Option String)
    (gs : List Group) : Except Unit (List String) := do
  let chunks ← gs.mapM (groupLines jira_base conf_base)
  pure (("*Results for:* `" ++ query ++ "`\n") :: chunks.flatten)

/-- `message_lines` after the summary step (lines 196-199): a truthy
(non-empty) summary appends the bold `*Summary:*` header and the summary
sentence. -/
def fullMessageLines (query : String) (jira_base conf_base : Option String)
    (gs : List Group) : Except Unit (List String) := do
  let lines ← buildMessageLines query jira_base conf_base gs
  let summary ← summarize_results gs
  if summary = "" then pure lines
  else pure (lines ++ ["*Summary:*", summary])

/-! ## Command entry point (`handle_search`, lines 141-201) -/

/-- What one invocation observably does: the text passed to `respond` and
the HTTP calls issued. -/
structure Outcome where
  message : String
  calls : List HttpCall
  deriving DecidableEq, Repr

/-- `handle_search(ack, respond, command)`.  `query` is the value of
`command.get("text", "")` (a string in every Slack payload); `ack()` has no
observable effect in this model. -/
def handle_search (env : Env) (query : String)
    (net : HttpCall → HttpResponse) : Except Unit Outcome :=
  if query = "" then
    .ok ⟨"Please provide a search query.", []⟩
  else do
    let (gs, cs) ← aggregate env query net
    if gs.isEmpty then
      pure ⟨"No services configured for search.", cs⟩
    else do
      let lines ← fullMessageLines query env.jira_base env.conf_base gs
      pure ⟨String.intercalate "\n" lines, cs⟩

/-! ## Proof toolkit: inversion of `Except` computations -/

instance {ε α : Type} [DecidableEq ε] [DecidableEq α] :
    DecidableEq (Except ε α) := fun a b =>
  match a, b with
  | .error e, .error f =>
    decidable_of_iff (e = f) ⟨fun h => by rw [h], Except.error.inj⟩
  | .error _, .ok _ => isFalse fun h => Except.noConfusion h
  | .ok _, .error _ => isFalse fun h => Except.noConfusion h
  | .ok a, .ok b =>
    decidable_of_iff (a = b) ⟨fun h => by rw [h], Except.ok.inj⟩

theorem except_bind_ok {α β : Type} {x : Except Unit α} {f : α → Except Unit β}
    {b : β} : x >>= f = .ok b ↔ ∃ a, x = .ok a ∧ f a = .ok b := by
  cases x with
  | error e => simp [Bind.bind, Except.bind]
  | ok a => simp [Bind.bind, Except.bind]

theorem except_map_ok {α β : Type} {x : Except Unit α} {f : α → β} {b : β} :
    x.map f = .ok b ↔ ∃ a, x = .ok a ∧ f a = b := by
  cases x with
  | error e => simp [Except.map]
  | ok a => simp [Except.map]

theorem except_pure_ok {α : Type} {a b : α} :
    (pure a : Except Unit α) = .ok b ↔ a = b := by
  simp [pure, Except.pure]

/-! ## Characterizations of the three aggregation steps -/

theorem slackStep_eq (env : Env) (q : String) (net : HttpCall → HttpResponse) :
    slackStep env q net =
      if slackConfigured env then
        (search_slack q (env.slack_token.getD "") net).map
          (fun items => ([⟨"Slack", items⟩], [slackCall q (env.slack_token.getD "")]))
      else .ok ([], []) := by
  unfold slackStep slackConfigured optTruthy
  cases env.slack_token with
  | none => simp
  | some t =>
    by_cases ht : t = "" <;> simp [ht]

theorem jiraStep_eq (env : Env) (q : String) (net : HttpCall → HttpResponse) :
    jiraStep env q net =
      if jiraConfigured env then
        (search_jira q (env.jira_base.getD "") (env.jira_email.getD "")
            (env.jira_token.getD "") net).map
          (fun items => ([⟨"Jira", items⟩],
            [jiraCall q (env.jira_base.getD "") (env.jira_email.getD "")
              (env.jira_token.getD "")]))
      else .ok ([], []) := by
  unfold jiraStep jiraConfigured optTruthy
  cases env.jira_base with
  | none => simp
  | some b =>
    cases env.jira_email with
    | none => simp
    | some e =>
      cases env.jira_token with
      | none => simp
      | some t =>
        by_cases hb : b = "" <;> by_cases he : e = "" <;> by_cases ht : t = "" <;>
          simp [hb, he, ht]

theorem confStep_eq (env : Env) (q : String) (net : HttpCall → HttpResponse) :
    confStep env q net =
      if confConfigured env then
        (search_confluence q (env.conf_base.getD "") (env.conf_email.getD "")
            (env.conf_token.getD "") net).map
          (fun items => ([⟨"Confluence", items⟩],
            [confluenceCall q (env.conf_base.getD "") (env.conf_email.getD "")
              (env.conf_token.getD "")]))
      else .ok ([], []) := by
  unfold confStep confConfigured optTruthy
  cases env.conf_base with
  | none => simp
  | some b =>
    cases env.conf_email with
    | none => simp
    | some e =>
      cases env.conf_token with
      | none => simp
      | some t =>
        by_cases hb : b = "" <;> by_cases he : e = "" <;> by_cases ht : t = "" <;>
          simp [hb, he, ht]

theorem aggregate_ok_iff {env : Env} {q : String} {net : HttpCall → HttpResponse}
    {gs : List Group} {cs : List HttpCall} :
    aggregate env q net = .ok (gs, cs) ↔
      ∃ s jr c, slackStep env q net = .ok s ∧ jiraStep env q net = .ok jr ∧
        confStep env q net = .ok c ∧
        gs = s.1 ++ jr.1 ++ c.1 ∧ cs = s.2 ++ jr.2 ++ c.2 := by
  unfold aggregate
  simp only [except_bind_ok, except_pure_ok, Prod.mk.injEq]
  constructor
  · rintro ⟨s, hs, jr, hjr, c, hc, h1, h2⟩
    exact ⟨s, jr, c, hs, hjr, hc, h1.symm, h2.symm⟩
  · rintro ⟨s, jr, c, hs, hjr, hc, h1, h2⟩
    exact ⟨s, hs, jr, hjr, c, hc, h1.symm, h2.symm⟩

/-- Inversion of the common shape of the three step characterizations. -/
theorem step_ok_inv {cfg : Bool} {name : String} {x : Except Unit J}
    {call : HttpCall} {s : List Group × List HttpCall}
    (h : (if cfg then
            x.map (fun items => (([⟨name, items⟩] : List Group), [call]))
          else .ok ([], [])) = .ok s) :
    if cfg then ∃ items, x = .ok items ∧ s = ([⟨name, items⟩], [call])
    else s = ([], []) := by
  cases cfg with
  | false =>
    rw [if_neg (by decide)] at h
    rw [if_neg (by decide)]
    exact (Except.ok.inj h).symm
  | true =>
    rw [if_pos (by decide)] at h
    rw [if_pos (by decide)]
    rcases except_map_ok.mp h with ⟨items, hx, hs⟩
    exact ⟨items, hx, hs.symm⟩

/-- A successful step contributes the service's singleton group exactly when
the service is configured. -/
theorem step_services {cfg : Bool} {name : String} {x : Except Unit J}
    {call : HttpCall} {s : List Group × List HttpCall}
    (h : (if cfg then
            x.map (fun items => (([⟨name, items⟩] : List Group), [call]))
          else .ok ([], [])) = .ok s) :
    s.1.map (·.service) = if cfg then [name] else [] := by
  have H := step_ok_inv h
  cases cfg with
  | false =>
    rw [if_neg (by decide)] at H ⊢
    simp [H]
  | true =>
    rw [if_pos (by decide)] at H ⊢
    rcases H with ⟨items, -, rfl⟩
    rfl

/-- A successful step issues the service's single HTTP call exactly when the
service is configured. -/
theorem step_calls {cfg : Bool} {name : String} {x : Except Unit J}
    {call : HttpCall} {s : List Group × List HttpCall}
    (h : (if cfg then
            x.map (fun items => (([⟨name, items⟩] : List Group), [call]))
          else .ok ([], [])) = .ok s) :
    s.2 = if cfg then [call] else [] := by
  have H := step_ok_inv h
  cases cfg with
  | false =>
    rw [if_neg (by decide)] at H ⊢
    simp [H]
  | true =>
    rw [if_pos (by decide)] at H ⊢
    rcases H with ⟨items, -, rfl⟩
    rfl

/-- Specialization of `step_ok_inv` to a configured service. -/
theorem step_inv_true {cfg : Bool} {name : String} {x : Except Unit J}
    {call : HttpCall} {s : List Group × List HttpCall} (hcfg : cfg = true)
    (h : (if cfg then
            x.map (fun items => (([⟨name, items⟩] : List Group), [call]))
          else .ok ([], [])) = .ok s) :
    ∃ items, x = .ok items ∧ s = ([⟨name, items⟩], [call]) := by
  subst hcfg
  have H := step_ok_inv h
  rwa [if_pos (by decide)] at H

/-- Specialization of `step_ok_inv` to an unconfigured service. -/
theorem step_inv_false {cfg : Bool} {name : String} {x : Except Unit J}
    {call : HttpCall} {s : List Group × List HttpCall} (hcfg : cfg = false)
    (h : (if cfg then
            x.map (fun items => (([⟨name, items⟩] : List Group), [call]))
          else .ok ([], [])) = .ok s) :
    s = ([], []) := by
  subst hcfg
  have H := step_ok_inv h
  rwa [if_neg (by decide)] at H

/-- Shared content of C1/C3: a successful aggregation's group list carries
exactly the configured services, in order. -/
theorem aggregate_ok_services {env : Env} {q : String}
    {net : HttpCall → HttpResponse} {gs : List Group} {cs : List HttpCall}
    (h : aggregate env q net = .ok (gs, cs)) :
    gs.map (·.service) = configuredServices env := by
  rcases aggregate_ok_iff.mp h with ⟨s, jr, c, hs, hjr, hc, hgs, -⟩
  rw [slackStep_eq] at hs
  rw [jiraStep_eq] at hjr
  rw [confStep_eq] at hc
  have Hs := step_services hs
  have Hj := step_services hjr
  have Hc := step_services hc
  subst hgs
  unfold configuredServices
  rw [List.map_append, List.map_append, Hs, Hj, Hc]

/-! ## C1: one group per configured service, in fixed order -/

/-- C1: for every subset of the services whose full credential bundle is
present, the aggregated `results` list passed to the formatter contains
exactly one group per configured service, in the fixed order Slack, Jira,
Confluence, and no group for an unconfigured service; a configured
service's group is appended even when its adapter returned an empty item
list (the group's presence depends only on the configuration flags, never
on the items). -/
theorem c1_aggregate_one_group_per_configured_service
    (env : Env) (q : String) (net : HttpCall → HttpResponse)
    (gs : List Group) (cs : List HttpCall)
    (h : aggregate env q net = .ok (gs, cs)) :
    gs.map (·.service) = configuredServices env :=
  aggregate_ok_services h

/-- Witness for C1: with Slack and Confluence fully configured but only a
partial Jira bundle (base URL without email), and every response failing
with status 500, aggregation yields exactly the groups Slack then
Confluence. -/
theorem c1_witness :
    ([(⟨"Slack", J.arr []⟩ : Group), ⟨"Confluence", J.arr []⟩].map (·.service)) =
      configuredServices ⟨some "tok", some "jb", none, some "jt",
        some "cb", some "ce", some "ct"⟩ :=
  c1_aggregate_one_group_per_configured_service
    ⟨some "tok", some "jb", none, some "jt", some "cb", some "ce", some "ct"⟩
    "q" (fun _ => ⟨500, none⟩)
    [⟨"Slack", J.arr []⟩, ⟨"Confluence", J.arr []⟩]
    [slackCall "q" "tok", confluenceCall "q" "cb" "ce" "ct"]
    rfl

/-! ## C2: empty-query guard.  The code tests `if not query:`, which fires
only on the empty string: a whitespace-only query is truthy in Python, so
it is handled as an ordinary query and adapters are invoked.  The claim as
stated (covering whitespace-only queries) is therefore false. -/

/-- Counterexample to C2: with Slack configured, the single-space query
`" "` does not produce the fixed notice and issues one HTTP call (to the
Slack search endpoint), contradicting the claim for a query that consists
only of whitespace. -/
theorem c2_counterexample :
    handle_search ⟨some "tok", none, none, none, none, none, none⟩ " "
        (fun _ => ⟨500, none⟩) =
      .ok ⟨"*Results for:* ` `\n\n*Slack*:\n\t- No results found.\n",
        [slackCall " " "tok"]⟩ ∧
    "*Results for:* ` `\n\n*Slack*:\n\t- No results found.\n" ≠
      "Please provide a search query." ∧
    [slackCall " " "tok"] ≠ ([] : List HttpCall) :=
  ⟨by decide, by decide, by decide⟩

/-- C2 (amended): for every command invocation whose query text is the
empty string, the handler responds with the fixed notice
"Please provide a search query." and issues zero HTTP calls; a query
consisting only of whitespace is not caught by this guard and proceeds as
an ordinary search. -/
theorem c2_empty_query_notice (env : Env) (net : HttpCall → HttpResponse) :
    handle_search env "" net = .ok ⟨"Please provide a search query.", []⟩ :=
  rfl

/-! ## C5: no configured services -/

/-- C5: if none of the three services has its full credential bundle
present (each presence flag computed from the environment is false), a
non-empty query is answered with the fixed notice
"No services configured for search." and zero HTTP calls are issued;
moreover a service with only a partial credential bundle is skipped
exactly as if unconfigured: whenever a service's configured flag is false
— in particular for a partial bundle such as a Jira base URL without email
or token — its step contributes no group and no call. -/
theorem c5_no_services_configured_notice :
    (∀ (env : Env) (q : String) (net : HttpCall → HttpResponse), q ≠ "" →
      slackConfigured env = false → jiraConfigured env = false →
      confConfigured env = false →
      handle_search env q net = .ok ⟨"No services configured for search.", []⟩) ∧
    (∀ (env : Env) (q : String) (net : HttpCall → HttpResponse),
      slackConfigured env = false → slackStep env q net = .ok ([], [])) ∧
    (∀ (env : Env) (q : String) (net : HttpCall → HttpResponse),
      jiraConfigured env = false → jiraStep env q net = .ok ([], [])) ∧
    (∀ (env : Env) (q : String) (net : HttpCall → HttpResponse),
      confConfigured env = false → confStep env q net = .ok ([], [])) := by
  have hslack : ∀ (env : Env) (q : String) (net : HttpCall → HttpResponse),
      slackConfigured env = false → slackStep env q net = .ok ([], []) := by
    intro env q net h1
    rw [slackStep_eq, h1]
    rfl
  have hjira : ∀ (env : Env) (q : String) (net : HttpCall → HttpResponse),
      jiraConfigured env = false → jiraStep env q net = .ok ([], []) := by
    intro env q net h2
    rw [jiraStep_eq, h2]
    rfl
  have hconf : ∀ (env : Env) (q : String) (net : HttpCall → HttpResponse),
      confConfigured env = false → confStep env q net = .ok ([], []) := by
    intro env q net h3
    rw [confStep_eq, h3]
    rfl
  refine ⟨?_, hslack, hjira, hconf⟩
  intro env q net hq h1 h2 h3
  have hagg : aggregate env q net = .ok ([], []) := by
    unfold aggregate
    rw [hslack env q net h1, hjira env q net h2, hconf env q net h3]
    rfl
  unfold handle_search
  rw [if_neg hq, hagg]
  rfl

/-! ## C3: non-success HTTP status degrades to an empty item list -/

theorem except_ok_bind {α β : Type} (a : α) (f : α → Except Unit β) :
    ((Except.ok a : Except Unit α) >>= f) = f a :=
  rfl

theorem except_error_bind {α β : Type} (f : α → Except Unit β) :
    ((Except.error () : Except Unit α) >>= f) = .error () :=
  rfl

/-- C3: for each adapter, a response with non-success HTTP status yields
the empty item list without raising; for Slack a successful status with a
non-truthy service-reported `"ok"` flag in the JSON body also yields the
empty list; and when Slack's response fails this way, a successful
aggregation still carries the Slack group with empty items followed by the
groups of the other configured services with their adapters' results. -/
theorem c3_http_failure_yields_empty_list :
    (∀ resp : HttpResponse, resp.ok = false →
      search_slack_body resp = .ok (J.arr []) ∧
      search_jira_body resp = .ok (J.arr []) ∧
      search_confluence_body resp = .ok (J.arr [])) ∧
    (∀ (resp : HttpResponse) (kvs : List (String × J)), resp.ok = true →
      resp.body = some (J.obj kvs) →
      ((assocGet kvs "ok").getD J.null).truthy = false →
      search_slack_body resp = .ok (J.arr [])) ∧
    (∀ (env : Env) (q : String) (net : HttpCall → HttpResponse)
        (gs : List Group) (cs : List HttpCall),
      aggregate env q net = .ok (gs, cs) →
      slackConfigured env = true →
      (net (slackCall q (env.slack_token.getD ""))).ok = false →
      ∃ jrg cg, gs = ⟨"Slack", J.arr []⟩ :: (jrg ++ cg) ∧
        (if jiraConfigured env then
          ∃ items, search_jira q (env.jira_base.getD "") (env.jira_email.getD "")
              (env.jira_token.getD "") net = .ok items ∧ jrg = [⟨"Jira", items⟩]
        else jrg = []) ∧
        (if confConfigured env then
          ∃ items, search_confluence q (env.conf_base.getD "")
              (env.conf_email.getD "") (env.conf_token.getD "") net = .ok items ∧
            cg = [⟨"Confluence", items⟩]
        else cg = [])) := by
  have hfail : ∀ resp : HttpResponse, resp.ok = false →
      search_slack_body resp = .ok (J.arr []) ∧
      search_jira_body resp = .ok (J.arr []) ∧
      search_confluence_body resp = .ok (J.arr []) := by
    intro resp h
    refine ⟨?_, ?_, ?_⟩ <;>
      simp [search_slack_body, search_jira_body, search_confluence_body, h,
        except_pure_ok]
  refine ⟨hfail, ?_, ?_⟩
  · intro resp kvs hok hbody hflag
    simp [search_slack_body, hok, responseJson, hbody, except_ok_bind,
      pyGetOpt, pyGet, hflag, except_pure_ok]
  · intro env q net gs cs h hcfg hresp
    rcases aggregate_ok_iff.mp h with ⟨s, jr, c, hs, hjr, hc, hgs, -⟩
    rw [slackStep_eq] at hs
    rw [jiraStep_eq] at hjr
    rw [confStep_eq] at hc
    obtain ⟨si, hsi, rfl⟩ := step_inv_true hcfg hs
    have hsearch : search_slack q (env.slack_token.getD "") net = .ok (J.arr []) := by
      unfold search_slack
      exact (hfail _ hresp).1
    have hsiarr : si = J.arr [] := by
      rw [hsearch] at hsi
      exact (Except.ok.inj hsi).symm
    subst hsiarr
    subst hgs
    refine ⟨jr.1, c.1, by simp, ?_, ?_⟩
    · by_cases hj : jiraConfigured env
      · rw [if_pos hj]
        obtain ⟨ji, hji, rfl⟩ := step_inv_true hj hjr
        exact ⟨ji, hji, rfl⟩
      · rw [if_neg hj]
        rw [step_inv_false (Bool.not_eq_true _ ▸ hj : jiraConfigured env = false) hjr]
    · by_cases hcj : confConfigured env
      · rw [if_pos hcj]
        obtain ⟨ci, hci, rfl⟩ := step_inv_true hcj hc
        exact ⟨ci, hci, rfl⟩
      · rw [if_neg hcj]
        rw [step_inv_false (Bool.not_eq_true _ ▸ hcj : confConfigured env = false) hc]

/-- Witness for C3: Slack, Jira and Confluence all configured; the Slack
endpoint answers 500 while Jira and Confluence answer 200 with one item
each: the aggregation keeps an empty Slack group and both other groups
with their items. -/
theorem c3_witness :
    ∃ jrg cg,
      ([(⟨"Slack", J.arr []⟩ : Group),
        ⟨"Jira", J.arr [J.obj [("key", J.str "OPS-1")]]⟩,
        ⟨"Confluence", J.arr [J.obj [("title", J.str "Page")]]⟩] : List Group) =
        ⟨"Slack", J.arr []⟩ :: (jrg ++ cg) ∧
      (if jiraConfigured ⟨some "tok", some "jb", some "je", some "jt",
          some "cb", some "ce", some "ct"⟩ then
        ∃ items, search_jira "q" "jb" "je" "jt"
            (fun call => if call.url = "https://slack.com/api/search.messages"
              then ⟨500, none⟩
              else ⟨200, some (J.obj
                [("issues", J.arr [J.obj [("key", J.str "OPS-1")]]),
                 ("results", J.arr [J.obj [("title", J.str "Page")]])])⟩) =
            .ok items ∧ jrg = [⟨"Jira", items⟩]
      else jrg = []) ∧
      (if confConfigured ⟨some "tok", some "jb", some "je", some "jt",
          some "cb", some "ce", some "ct"⟩ then
        ∃ items, search_confluence "q" "cb" "ce" "ct"
            (fun call => if call.url = "https://slack.com/api/search.messages"
              then ⟨500, none⟩
              else ⟨200, some (J.obj
                [("issues", J.arr [J.obj [("key", J.str "OPS-1")]]),
                 ("results", J.arr [J.obj [("title", J.str "Page")]])])⟩) =
            .ok items ∧ cg = [⟨"Confluence", items⟩]
      else cg = []) :=
  c3_http_failure_yields_empty_list.2.2
    ⟨some "tok", some "jb", some "je", some "jt", some "cb", some "ce", some "ct"⟩
    "q"
    (fun call => if call.url = "https://slack.com/api/search.messages"
      then ⟨500, none⟩
      else ⟨200, some (J.obj
        [("issues", J.arr [J.obj [("key", J.str "OPS-1")]]),
         ("results", J.arr [J.obj [("title", J.str "Page")]])])⟩)
    [⟨"Slack", J.arr []⟩,
     ⟨"Jira", J.arr [J.obj [("key", J.str "OPS-1")]]⟩,
     ⟨"Confluence", J.arr [J.obj [("title", J.str "Page")]]⟩]
    [slackCall "q" "tok", jiraCall "q" "jb" "je" "jt",
     confluenceCall "q" "cb" "ce" "ct"]
    rfl rfl rfl

/-- Witness for C5: Jira configured only partially (base URL and API token,
no email), everything else unset: the handler answers with the fixed
notice and issues no HTTP call. -/
theorem c5_witness :
    handle_search ⟨none, some "https://jira.example.com", none, some "jt",
        none, none, none⟩ "deploy" (fun _ => ⟨500, none⟩) =
      .ok ⟨"No services configured for search.", []⟩ :=
  c5_no_services_configured_notice.1
    ⟨none, some "https://jira.example.com", none, some "jt", none, none, none⟩
    "deploy" (fun _ => ⟨500, none⟩) (by decide) rfl rfl rfl

/-! ## C9: the exact Jira request -/

/-- Shared helper: a successful aggregation issues exactly one call per
configured service, in order. -/
theorem aggregate_ok_calls {env : Env} {q : String}
    {net : HttpCall → HttpResponse} {gs : List Group} {cs : List HttpCall}
    (h : aggregate env q net = .ok (gs, cs)) :
    cs = (if slackConfigured env then [slackCall q (env.slack_token.getD "")] else []) ++
      (if jiraConfigured env then
        [jiraCall q (env.jira_base.getD "") (env.jira_email.getD "")
          (env.jira_token.getD "")] else []) ++
      (if confConfigured env then
        [confluenceCall q (env.conf_base.getD "") (env.conf_email.getD "")
          (env.conf_token.getD "")] else []) := by
  rcases aggregate_ok_iff.mp h with ⟨s, jr, c, hs, hjr, hc, -, hcs⟩
  rw [slackStep_eq] at hs
  rw [jiraStep_eq] at hjr
  rw [confStep_eq] at hc
  rw [hcs, step_calls hs, step_calls hjr, step_calls hc]

/-- C9: for every query string the Jira adapter's single request carries
exactly the JQL expression `text ~ "<query>" order by updated desc` (the
query embedded verbatim), the result cap `maxResults=5` and the 10-second
timeout; and a successful aggregation issues exactly that one request for
Jira (one call per configured service). -/
theorem c9_jira_request_parameters :
    (∀ q base email token : String,
      jiraCall q base email token =
        { url := base ++ "/rest/api/2/search"
          params := [("jql", "text ~ \"" ++ q ++ "\" order by updated desc"),
            ("maxResults", "5")]
          headers := []
          auth := some (email, token)
          timeout := 10 }) ∧
    (∀ (env : Env) (q : String) (net : HttpCall → HttpResponse)
        (gs : List Group) (cs : List HttpCall),
      aggregate env q net = .ok (gs, cs) →
      cs = (if slackConfigured env then [slackCall q (env.slack_token.getD "")] else []) ++
        (if jiraConfigured env then
          [jiraCall q (env.jira_base.getD "") (env.jira_email.getD "")
            (env.jira_token.getD "")] else []) ++
        (if confConfigured env then
          [confluenceCall q (env.conf_base.getD "") (env.conf_email.getD "")
            (env.conf_token.getD "")] else [])) :=
  ⟨fun _ _ _ _ => rfl, fun _ _ _ _ _ h => aggregate_ok_calls h⟩

/-- Witness for C9: with only Jira configured and a failing network, the
handler's one and only HTTP call is the Jira search request with the
verbatim JQL, `maxResults=5` and timeout 10. -/
theorem c9_witness :
    jiraCall "deploy failed" "https://jira.example.com" "je" "jt" =
      { url := "https://jira.example.com" ++ "/rest/api/2/search"
        params := [("jql", "text ~ \"" ++ "deploy failed" ++ "\" order by updated desc"),
          ("maxResults", "5")]
        headers := []
        auth := some ("je", "jt")
        timeout := 10 } ∧
    ([jiraCall "deploy failed" "https://jira.example.com" "je" "jt"] : List HttpCall) =
      (if slackConfigured ⟨none, some "https://jira.example.com", some "je",
          some "jt", none, none, none⟩ then
        [slackCall "deploy failed" "tokX"] else []) ++
      (if jiraConfigured ⟨none, some "https://jira.example.com", some "je",
          some "jt", none, none, none⟩ then
        [jiraCall "deploy failed" "https://jira.example.com" "je" "jt"] else []) ++
      (if confConfigured ⟨none, some "https://jira.example.com", some "je",
          some "jt", none, none, none⟩ then
        [confluenceCall "deploy failed" "cbX" "ceX" "ctX"] else []) := by
  constructor
  · exact c9_jira_request_parameters.1 "deploy failed" "https://jira.example.com" "je" "jt"
  · have := c9_jira_request_parameters.2
      ⟨none, some "https://jira.example.com", some "je", some "jt", none, none, none⟩
      "deploy failed" (fun _ => ⟨500, none⟩)
      [⟨"Jira", J.arr []⟩]
      [jiraCall "deploy failed" "https://jira.example.com" "je" "jt"]
      rfl
    simpa using this

/-! ## C4: malformed response bodies.  The code absorbs a body that lacks
the expected list field (every dict access uses `.get` with a default),
but a body that is not valid JSON makes `response.json()` raise
`JSONDecodeError` whenever the HTTP status is a success — there is no
try/except anywhere on the path, so the exception propagates out of the
adapter and aborts the aggregation of the remaining services.  The claim
as stated (invalid JSON absorbed locally) is therefore false. -/

/-- Counterexample to C4: a status-200 response whose body is not valid
JSON makes the Slack adapter raise instead of returning an empty list, and
with Slack and Jira configured the exception aborts the whole aggregation,
so Jira is never queried. -/
theorem c4_counterexample :
    search_slack_body ⟨200, none⟩ = .error () ∧
    aggregate ⟨some "tok", some "jb", some "je", some "jt", none, none, none⟩
      "q" (fun call =>
        if call.url = "https://slack.com/api/search.messages"
        then ⟨200, none⟩ else ⟨200, some (J.obj [("issues", J.arr [])])⟩) =
      .error () :=
  ⟨rfl, rfl⟩

/-- C4 (amended): a response body that is valid JSON but misses the
expected list field is absorbed locally as an empty result list for that
service, with no exception; a body that is not valid JSON is absorbed only
when the HTTP status is non-success — on a success status the JSON parse
raises and the exception propagates out of the adapter. -/
theorem c4_missing_field_absorbed :
    (∀ (code : Nat) (kvs : List (String × J)), code < 400 →
      ((assocGet kvs "ok").getD J.null).truthy = true →
      assocGet kvs "messages" = none →
      search_slack_body ⟨code, some (J.obj kvs)⟩ = .ok (J.arr [])) ∧
    (∀ (code : Nat) (kvs : List (String × J)), code < 400 →
      assocGet kvs "issues" = none →
      search_jira_body ⟨code, some (J.obj kvs)⟩ = .ok (J.arr [])) ∧
    (∀ (code : Nat) (kvs : List (String × J)), code < 400 →
      assocGet kvs "results" = none →
      search_confluence_body ⟨code, some (J.obj kvs)⟩ = .ok (J.arr [])) ∧
    (∀ code : Nat, 400 ≤ code →
      search_slack_body ⟨code, none⟩ = .ok (J.arr []) ∧
      search_jira_body ⟨code, none⟩ = .ok (J.arr []) ∧
      search_confluence_body ⟨code, none⟩ = .ok (J.arr [])) ∧
    (∀ code : Nat, code < 400 →
      search_slack_body ⟨code, none⟩ = .error () ∧
      search_jira_body ⟨code, none⟩ = .error () ∧
      search_confluence_body ⟨code, none⟩ = .error ()) := by
  refine ⟨?_, ?_, ?_, ?_, ?_⟩
  · intro code kvs hcode hflag hmiss
    simp [search_slack_body, HttpResponse.ok, hcode, responseJson,
      except_ok_bind, pyGetOpt, pyGet, hflag, hmiss, assocGet, except_pure_ok]
  · intro code kvs hcode hmiss
    simp [search_jira_body, HttpResponse.ok, hcode, responseJson,
      except_ok_bind, pyGet, hmiss, except_pure_ok]
  · intro code kvs hcode hmiss
    simp [search_confluence_body, HttpResponse.ok, hcode, responseJson,
      except_ok_bind, pyGet, hmiss, except_pure_ok]
  · intro code hcode
    have hok : (HttpResponse.mk code none).ok = false := by
      simp [HttpResponse.ok]
      omega
    refine ⟨?_, ?_, ?_⟩ <;>
      simp [search_slack_body, search_jira_body, search_confluence_body, hok,
        except_pure_ok]
  · intro code hcode
    refine ⟨?_, ?_, ?_⟩ <;>
      simp [search_slack_body, search_jira_body, search_confluence_body,
        HttpResponse.ok, hcode, responseJson, except_ok_bind, except_error_bind]

/-- Witness for C4 (amended): status 200 with body `{"ok": true}` (no
`messages` field) yields Slack's empty list; status 200 with body `{}`
yields Jira's and Confluence's empty lists; status 500 with an invalid
JSON body is absorbed by all three; status 200 with an invalid JSON body
raises in all three. -/
theorem c4_witness :
    search_slack_body ⟨200, some (J.obj [("ok", J.bool true)])⟩ = .ok (J.arr []) ∧
    search_jira_body ⟨200, some (J.obj [])⟩ = .ok (J.arr []) ∧
    search_confluence_body ⟨200, some (J.obj [])⟩ = .ok (J.arr []) ∧
    (search_slack_body ⟨500, none⟩ = .ok (J.arr []) ∧
      search_jira_body ⟨500, none⟩ = .ok (J.arr []) ∧
      search_confluence_body ⟨500, none⟩ = .ok (J.arr [])) ∧
    (search_slack_body ⟨200, none⟩ = .error () ∧
      search_jira_body ⟨200, none⟩ = .error () ∧
      search_confluence_body ⟨200, none⟩ = .error ()) :=
  ⟨c4_missing_field_absorbed.1 200 [("ok", J.bool true)] (by decide) rfl rfl,
   c4_missing_field_absorbed.2.1 200 [] (by decide) rfl,
   c4_missing_field_absorbed.2.2.1 200 [] (by decide) rfl,
   c4_missing_field_absorbed.2.2.2.1 500 (by decide),
   c4_missing_field_absorbed.2.2.2.2 200 (by decide)⟩

/-! ## C8: Jira bullet rendering.  The code computes
`link = f"{jira_base}/browse/{key}" if key else ""`: the guard is Python
truthiness of the key's value, not presence of the key, so an item whose
`key` is present but falsy (e.g. the empty string) renders an empty link,
contradicting the claim for that item. -/

/-- Counterexample to C8: the item `{key: "", fields: {summary: "Fix
outage"}}` has its `key` field present, so the claim requires the link
`https://jira.example.com/browse/`, but the code renders the empty link. -/
theorem c8_counterexample :
    renderItem "Jira" (some "https://jira.example.com") none
        (J.obj [("key", J.str ""),
          ("fields", J.obj [("summary", J.str "Fix outage")])]) =
      .ok (bulletLine "" "Fix outage") ∧
    bulletLine "" "Fix outage" ≠
      bulletLine ("https://jira.example.com" ++ "/browse/" ++ "") "Fix outage" :=
  ⟨rfl, by decide⟩

/-- C8 (amended): for a Jira result item the formatter renders the
bullet's display text as `item.fields.summary` and its link as the
configured base URL + "/browse/" + `item.key` when the `key` field is
present with a truthy (non-empty) string value; when `key` is absent, or
present but falsy, the link is the empty string.  In particular, for the
item `{key: "OPS-12", fields: {summary: "Fix outage"}}` with base URL
`https://jira.example.com` the link is
`https://jira.example.com/browse/OPS-12`. -/
theorem c8_jira_bullet_rendering :
    (∀ (jb cb : Option String) (k : String) (fkvs : List (String × J)),
      renderItem "Jira" jb cb
          (J.obj [("key", J.str k), ("fields", J.obj fkvs)]) =
        .ok (bulletLine
          (if k = "" then "" else optBase jb ++ "/browse/" ++ k)
          ((assocGet fkvs "summary").getD (J.str "")).pyStr)) ∧
    (∀ (jb cb : Option String) (fkvs : List (String × J)),
      renderItem "Jira" jb cb (J.obj [("fields", J.obj fkvs)]) =
        .ok (bulletLine "" ((assocGet fkvs "summary").getD (J.str "")).pyStr)) ∧
    renderItem "Jira" (some "https://jira.example.com") none
        (J.obj [("key", J.str "OPS-12"),
          ("fields", J.obj [("summary", J.str "Fix outage")])]) =
      .ok (bulletLine "https://jira.example.com/browse/OPS-12" "Fix outage") := by
  refine ⟨?_, ?_, rfl⟩
  · intro jb cb k fkvs
    by_cases hk : k = "" <;>
      simp [renderItem, pyGetOpt, pyGet, assocGet, except_ok_bind,
        J.truthy, J.pyStr, hk, except_pure_ok]
  · intro jb cb fkvs
    simp [renderItem, pyGetOpt, pyGet, assocGet, except_ok_bind,
      J.truthy, except_pure_ok]

/-- Witness for C8 (amended): the truthy-key clause at the OPS-12 item and
the absent-key clause at an item with only a summary. -/
theorem c8_witness :
    renderItem "Jira" (some "https://jira.example.com") none
        (J.obj [("key", J.str "OPS-12"),
          ("fields", J.obj [("summary", J.str "Fix outage")])]) =
      .ok (bulletLine
        (if "OPS-12" = "" then ""
         else optBase (some "https://jira.example.com") ++ "/browse/" ++ "OPS-12")
        ((assocGet [("summary", J.str "Fix outage")] "summary").getD
          (J.str "")).pyStr) ∧
    renderItem "Jira" (some "https://jira.example.com") none
        (J.obj [("fields", J.obj [("summary", J.str "Fix outage")])]) =
      .ok (bulletLine ""
        ((assocGet [("summary", J.str "Fix outage")] "summary").getD
          (J.str "")).pyStr) :=
  ⟨c8_jira_bullet_rendering.1 (some "https://jira.example.com") none
      "OPS-12" [("summary", J.str "Fix outage")],
   c8_jira_bullet_rendering.2.1 (some "https://jira.example.com") none
      [("summary", J.str "Fix outage")]⟩

/-! ## Frequency-dict lemmas for the summarizer claims -/

theorem bump_lookup (acc : List (String × Nat)) (t w : String) :
    lookupNat (bump acc t) w =
      if w = t then lookupNat acc w + 1 else lookupNat acc w := by
  induction acc with
  | nil =>
    by_cases h : w = t
    · subst h
      simp [bump, lookupNat]
    · simp [bump, lookupNat, h, Ne.symm h]
  | cons p rest ih =>
    obtain ⟨k, v⟩ := p
    by_cases hk : k = t
    · subst hk
      by_cases hw : k = w
      · subst hw
        simp [bump, lookupNat]
      · have hw2 : ¬w = k := fun h => hw h.symm
        simp [bump, lookupNat, hw, hw2]
    · by_cases hw : k = w
      · subst hw
        simp [bump, lookupNat, hk]
      · simp [bump, lookupNat, hk, hw, ih]

theorem freqLoop_eq_freqAll (ts : List String) (acc : List (String × Nat)) :
    freqLoop acc ts = freqAll acc (ts.filter fun t => !skipTok t) := by
  induction ts generalizing acc with
  | nil => rfl
  | cons t ts ih =>
    by_cases h : skipTok t <;>
      simp [freqLoop, freqAll, List.filter_cons, h, ih]

theorem freqAll_lookup (ts : List String) (acc : List (String × Nat))
    (w : String) :
    lookupNat (freqAll acc ts) w = lookupNat acc w + ts.count w := by
  induction ts generalizing acc with
  | nil => simp [freqAll]
  | cons t ts ih =>
    rw [show freqAll acc (t :: ts) = freqAll (bump acc t) ts from rfl, ih,
      bump_lookup]
    by_cases h : w = t
    · subst h
      simp [List.count_cons]
      omega
    · simp [List.count_cons, h]

theorem bump_keys (acc : List (String × Nat)) (t : String) :
    (bump acc t).map Prod.fst =
      if t ∈ acc.map Prod.fst then acc.map Prod.fst
      else acc.map Prod.fst ++ [t] := by
  induction acc with
  | nil => simp [bump]
  | cons p rest ih =>
    obtain ⟨k, v⟩ := p
    by_cases hk : k = t
    · subst hk
      simp [bump]
    · have hk2 : ¬t = k := fun h => hk h.symm
      by_cases hm : t ∈ rest.map Prod.fst <;>
        simp [bump, hk, hk2, hm, ih]

theorem firstOccursAux_congr {s1 s2 : List String} (ts : List String)
    (h : ∀ x, x ∈ s1 ↔ x ∈ s2) : firstOccursAux s1 ts = firstOccursAux s2 ts := by
  induction ts generalizing s1 s2 with
  | nil => rfl
  | cons t ts ih =>
    by_cases hm : t ∈ s1
    · rw [show firstOccursAux s1 (t :: ts) =
          (if t ∈ s1 then firstOccursAux s1 ts
           else t :: firstOccursAux (t :: s1) ts) from rfl,
        show firstOccursAux s2 (t :: ts) =
          (if t ∈ s2 then firstOccursAux s2 ts
           else t :: firstOccursAux (t :: s2) ts) from rfl,
        if_pos hm, if_pos ((h t).mp hm)]
      exact ih h
    · rw [show firstOccursAux s1 (t :: ts) =
          (if t ∈ s1 then firstOccursAux s1 ts
           else t :: firstOccursAux (t :: s1) ts) from rfl,
        show firstOccursAux s2 (t :: ts) =
          (if t ∈ s2 then firstOccursAux s2 ts
           else t :: firstOccursAux (t :: s2) ts) from rfl,
        if_neg hm, if_neg (fun hx => hm ((h t).mpr hx))]
      refine congrArg (t :: ·) (ih fun x => ?_)
      simp only [List.mem_cons]
      exact or_congr Iff.rfl (h x)

theorem freqAll_keys (ts : List String) (acc : List (String × Nat)) :
    (freqAll acc ts).map Prod.fst =
      acc.map Prod.fst ++ firstOccursAux (acc.map Prod.fst) ts := by
  induction ts generalizing acc with
  | nil => simp [freqAll, firstOccursAux]
  | cons t ts ih =>
    rw [show freqAll acc (t :: ts) = freqAll (bump acc t) ts from rfl, ih,
      bump_keys,
      show firstOccursAux (acc.map Prod.fst) (t :: ts) =
        (if t ∈ acc.map Prod.fst then firstOccursAux (acc.map Prod.fst) ts
         else t :: firstOccursAux (t :: acc.map Prod.fst) ts) from rfl]
    by_cases hm : t ∈ acc.map Prod.fst
    · rw [if_pos hm, if_pos hm]
    · rw [if_neg hm, if_neg hm,
        @firstOccursAux_congr (acc.map Prod.fst ++ [t]) (t :: acc.map Prod.fst)
          ts (fun x => by simp [or_comm]),
        List.append_assoc]
      rfl

theorem firstOccursAux_append_nodup (ts : List String) :
    ∀ seen : List String, seen.Nodup → (seen ++ firstOccursAux seen ts).Nodup := by
  induction ts with
  | nil =>
    intro seen hs
    simpa [firstOccursAux] using hs
  | cons t ts ih =>
    intro seen hs
    by_cases hm : t ∈ seen
    · rw [show firstOccursAux seen (t :: ts) =
          (if t ∈ seen then firstOccursAux seen ts
           else t :: firstOccursAux (t :: seen) ts) from rfl, if_pos hm]
      exact ih seen hs
    · rw [show firstOccursAux seen (t :: ts) =
          (if t ∈ seen then firstOccursAux seen ts
           else t :: firstOccursAux (t :: seen) ts) from rfl, if_neg hm]
      have h2 := ih (t :: seen) (List.nodup_cons.mpr ⟨hm, hs⟩)
      exact List.perm_middle.symm.nodup h2

theorem buildFreq_keys (toks : List String) :
    (buildFreq toks).map Prod.fst =
      firstOccurs (toks.filter fun t => !skipTok t) := by
  unfold buildFreq firstOccurs
  rw [freqLoop_eq_freqAll, freqAll_keys]
  rfl

theorem buildFreq_keys_nodup (toks : List String) :
    ((buildFreq toks).map Prod.fst).Nodup := by
  rw [buildFreq_keys]
  have := firstOccursAux_append_nodup
    (toks.filter fun t => !skipTok t) [] (by simp)
  simpa [firstOccurs] using this

theorem mem_firstOccursAux_sub {ts : List String} :
    ∀ {w : String} {s : List String}, w ∈ firstOccursAux s ts → w ∈ ts := by
  induction ts with
  | nil => intro w s h; simp [firstOccursAux] at h
  | cons t ts ih =>
    intro w s h
    by_cases hm : t ∈ s
    · rw [show firstOccursAux s (t :: ts) =
          (if t ∈ s then firstOccursAux s ts
           else t :: firstOccursAux (t :: s) ts) from rfl, if_pos hm] at h
      exact List.mem_cons_of_mem t (ih h)
    · rw [show firstOccursAux s (t :: ts) =
          (if t ∈ s then firstOccursAux s ts
           else t :: firstOccursAux (t :: s) ts) from rfl, if_neg hm] at h
      rcases List.mem_cons.mp h with h | h
      · exact h ▸ List.mem_cons_self t ts
      · exact List.mem_cons_of_mem t (ih h)

theorem freqLoop_all_skip :
    ∀ (ts : List String) (acc : List (String × Nat)),
      (∀ t ∈ ts, skipTok t = true) → freqLoop acc ts = acc := by
  intro ts
  induction ts with
  | nil => intro acc _; rfl
  | cons t ts ih =>
    intro acc h
    rw [show freqLoop acc (t :: ts) =
        freqLoop (if skipTok t then acc else bump acc t) ts from rfl,
      if_pos (h t (List.mem_cons_self t ts))]
    exact ih acc fun x hx => h x (List.mem_cons_of_mem t hx)

theorem lookupNat_of_mem :
    ∀ {l : List (String × Nat)}, (l.map Prod.fst).Nodup →
      ∀ {p : String × Nat}, p ∈ l → lookupNat l p.1 = p.2 := by
  intro l
  induction l with
  | nil => intro _ p hp; cases hp
  | cons q rest ih =>
    intro hnd p hp
    rw [List.map_cons, List.nodup_cons] at hnd
    rcases List.mem_cons.mp hp with h | h
    · subst h
      simp [lookupNat]
    · have hne : ¬q.1 = p.1 := fun he =>
        hnd.1 (he ▸ List.mem_map_of_mem Prod.fst h)
      simpa [lookupNat, hne] using ih hnd.2 h

theorem mem_of_lookupNat :
    ∀ {l : List (String × Nat)} {w : String}, w ∈ l.map Prod.fst →
      (w, lookupNat l w) ∈ l := by
  intro l
  induction l with
  | nil => intro w hw; simp at hw
  | cons q rest ih =>
    intro w hw
    by_cases h : q.1 = w
    · subst h
      have hl : lookupNat (q :: rest) q.1 = q.2 := by simp [lookupNat]
      rw [hl]
      exact List.mem_cons_self q rest
    · have hne : ¬q.1 = w := h
      rw [List.map_cons] at hw
      have hw2 : w ∈ rest.map Prod.fst := by
        rcases List.mem_cons.mp hw with h2 | h2
        · exact absurd h2.symm hne
        · exact h2
      have := ih hw2
      have hl : lookupNat (q :: rest) w = lookupNat rest w := by
        simp [lookupNat, hne]
      rw [hl]
      exact List.mem_cons_of_mem q this

theorem pair_eq_of_mem_nodup_keys {l : List (String × Nat)}
    (hnd : (l.map Prod.fst).Nodup) {p q : String × Nat}
    (hp : p ∈ l) (hq : q ∈ l) (h : p.1 = q.1) : p = q := by
  have h1 := lookupNat_of_mem hnd hp
  have h2 := lookupNat_of_mem hnd hq
  have : p.2 = q.2 := by rw [← h1, h, h2]
  exact Prod.ext h this

/-! ## Stable-sort lemmas -/

theorem insertDesc_perm (p : String × Nat) (l : List (String × Nat)) :
    List.Perm (insertDesc p l) (p :: l) := by
  induction l with
  | nil => rfl
  | cons q qs ih =>
    by_cases h : p.2 < q.2
    · rw [show insertDesc p (q :: qs) =
          (if p.2 < q.2 then q :: insertDesc p qs else p :: q :: qs) from rfl,
        if_pos h]
      exact (ih.cons q).trans (List.Perm.swap p q qs)
    · rw [show insertDesc p (q :: qs) =
          (if p.2 < q.2 then q :: insertDesc p qs else p :: q :: qs) from rfl,
        if_neg h]

theorem sortDesc_perm (l : List (String × Nat)) : List.Perm (sortDesc l) l := by
  induction l with
  | nil => rfl
  | cons p ps ih =>
    exact (insertDesc_perm p (sortDesc ps)).trans (ih.cons p)

theorem pairwise_insertDesc {p : String × Nat} {l : List (String × Nat)}
    (h : l.Pairwise (fun a b => b.2 ≤ a.2)) :
    (insertDesc p l).Pairwise (fun a b => b.2 ≤ a.2) := by
  induction l with
  | nil => simp [insertDesc]
  | cons q qs ih =>
    rcases List.pairwise_cons.mp h with ⟨hq, hqs⟩
    by_cases hlt : p.2 < q.2
    · rw [show insertDesc p (q :: qs) =
          (if p.2 < q.2 then q :: insertDesc p qs else p :: q :: qs) from rfl,
        if_pos hlt]
      refine List.pairwise_cons.mpr ⟨?_, ih hqs⟩
      intro b hb
      rcases List.mem_cons.mp ((insertDesc_perm p qs).mem_iff.mp hb) with h2 | h2
      · exact h2 ▸ Nat.le_of_lt hlt
      · exact hq b h2
    · rw [show insertDesc p (q :: qs) =
          (if p.2 < q.2 then q :: insertDesc p qs else p :: q :: qs) from rfl,
        if_neg hlt]
      refine List.pairwise_cons.mpr ⟨?_, h⟩
      intro b hb
      rcases List.mem_cons.mp hb with h2 | h2
      · exact h2 ▸ Nat.le_of_not_lt hlt
      · exact Nat.le_trans (hq b h2) (Nat.le_of_not_lt hlt)

theorem pairwise_sortDesc (l : List (String × Nat)) :
    (sortDesc l).Pairwise (fun a b => b.2 ≤ a.2) := by
  induction l with
  | nil => simp [sortDesc]
  | cons p ps ih => exact pairwise_insertDesc ih

theorem sublist_insertDesc (x : String × Nat) :
    ∀ {m s : List (String × Nat)}, List.Sublist s m →
      List.Sublist s (insertDesc x m) := by
  intro m
  induction m with
  | nil =>
    intro s h
    rw [List.sublist_nil.mp h]
    exact List.nil_sublist _
  | cons q qs ih =>
    intro s h
    by_cases hlt : x.2 < q.2
    · rw [show insertDesc x (q :: qs) =
          (if x.2 < q.2 then q :: insertDesc x qs else x :: q :: qs) from rfl,
        if_pos hlt]
      cases h with
      | cons _ h2 => exact (ih h2).cons q
      | cons₂ _ h2 => exact (ih h2).cons₂ q
    · rw [show insertDesc x (q :: qs) =
          (if x.2 < q.2 then q :: insertDesc x qs else x :: q :: qs) from rfl,
        if_neg hlt]
      exact h.cons x

theorem pair_sublist_insertDesc {x q : String × Nat} :
    ∀ {m : List (String × Nat)}, q ∈ m → q.2 ≤ x.2 →
      List.Sublist [x, q] (insertDesc x m) := by
  intro m
  induction m with
  | nil => intro hq; cases hq
  | cons r rs ih =>
    intro hq hle
    by_cases hlt : x.2 < r.2
    · rw [show insertDesc x (r :: rs) =
          (if x.2 < r.2 then r :: insertDesc x rs else x :: r :: rs) from rfl,
        if_pos hlt]
      rcases List.mem_cons.mp hq with h2 | h2
      · subst h2
        omega
      · exact (ih h2 hle).cons r
    · rw [show insertDesc x (r :: rs) =
          (if x.2 < r.2 then r :: insertDesc x rs else x :: r :: rs) from rfl,
        if_neg hlt]
      exact (List.singleton_sublist.mpr hq).cons₂ x

theorem sortDesc_stable :
    ∀ {l : List (String × Nat)} {p q : String × Nat},
      List.Sublist [p, q] l → q.2 ≤ p.2 → List.Sublist [p, q] (sortDesc l) := by
  intro l
  induction l with
  | nil => intro p q h _; cases List.sublist_nil.mp h
  | cons r rs ih =>
    intro p q h hle
    rw [show sortDesc (r :: rs) = insertDesc r (sortDesc rs) from rfl]
    cases h with
    | cons _ h2 => exact sublist_insertDesc r (ih h2 hle)
    | cons₂ _ h2 =>
      refine pair_sublist_insertDesc ?_ hle
      exact (sortDesc_perm rs).mem_iff.mpr (List.singleton_sublist.mp h2)

theorem sublist_take_of_mem {α : Type} :
    ∀ {l : List α}, l.Nodup → ∀ {a b : α}, List.Sublist [a, b] l →
      ∀ n : Nat, b ∈ l.take n → List.Sublist [a, b] (l.take n) := by
  intro l
  induction l with
  | nil => intro _ a b h n hb; simp at hb
  | cons x xs ih =>
    intro hnd a b h n hb
    cases n with
    | zero => simp at hb
    | succ m =>
      rw [List.take_succ_cons] at hb ⊢
      rcases List.nodup_cons.mp hnd with ⟨hx, hnd2⟩
      cases h with
      | cons₂ _ h2 =>
        rcases List.mem_cons.mp hb with h3 | h3
        · exact absurd (h3 ▸ List.singleton_sublist.mp h2) hx
        · exact (List.singleton_sublist.mpr h3).cons₂ x
      | cons _ h2 =>
        rcases List.mem_cons.mp hb with h3 | h3
        · exact absurd (h3 ▸ h2.subset (by simp)) hx
        · exact (ih hnd2 h2 m h3).cons x

theorem sublist_map_pair {α β : Type} {f : α → β} {a b : β} :
    ∀ {l : List α}, List.Sublist [a, b] (l.map f) →
      ∃ p q, List.Sublist [p, q] l ∧ f p = a ∧ f q = b := by
  intro l
  induction l with
  | nil => intro h; simp at h
  | cons x xs ih =>
    intro h
    rw [List.map_cons] at h
    cases h with
    | cons _ h2 =>
      rcases ih h2 with ⟨p, q, hsub, hfp, hfq⟩
      exact ⟨p, q, hsub.cons x, hfp, hfq⟩
    | cons₂ _ h2 =>
      rcases List.mem_map.mp (List.singleton_sublist.mp h2) with ⟨q, hq, hfq⟩
      exact ⟨x, q, (List.singleton_sublist.mpr hq).cons₂ x, rfl, hfq⟩

/-! ## C6: the summarizer's top-topics computation -/

/-- C6: the summarizer excludes every token that is a stop-word or shorter
than 3 characters regardless of frequency (no such token ever appears in
the top words), returns at most 5 tokens, ranked by non-increasing
frequency where each stored count is exactly the token's frequency among
the surviving tokens; and on the corpus
"deploy failed deploy rollback deploy failed" it renders
"Top topics: deploy, failed, rollback." with "deploy" (count 3) first. -/
theorem c6_summarizer_top_topics :
    (∀ (toks : List String) (w : String), w ∈ topWords toks →
      ¬w ∈ stopWords ∧ 3 ≤ w.length) ∧
    (∀ toks : List String, (topWords toks).length ≤ 5) ∧
    (∀ toks : List String,
      (sortDesc (buildFreq toks)).Pairwise (fun p q => q.2 ≤ p.2)) ∧
    (∀ (toks : List String) (w : String) (c : Nat), (w, c) ∈ buildFreq toks →
      c = (toks.filter fun t => !skipTok t).count w) ∧
    summarize_results [⟨"Slack", J.arr [J.obj
      [("text", J.str "deploy failed deploy rollback deploy failed")]]⟩] =
      .ok "Top topics: deploy, failed, rollback." := by
  refine ⟨?_, ?_, ?_, ?_, ?_⟩
  · intro toks w hw
    unfold topWords at hw
    rcases List.mem_map.mp hw with ⟨p, hp, rfl⟩
    have hp2 : p ∈ sortDesc (buildFreq toks) := List.mem_of_mem_take hp
    have hp3 : p ∈ buildFreq toks := (sortDesc_perm _).mem_iff.mp hp2
    have hk : p.1 ∈ (buildFreq toks).map Prod.fst := List.mem_map_of_mem _ hp3
    rw [buildFreq_keys] at hk
    have hk2 : p.1 ∈ firstOccursAux [] (toks.filter fun t => !skipTok t) := hk
    have hfil : p.1 ∈ toks.filter (fun t => !skipTok t) :=
      mem_firstOccursAux_sub hk2
    have hkeep := (List.mem_filter.mp hfil).2
    have hskip : ¬p.1 ∈ stopWords ∧ 3 ≤ p.1.length := by
      simpa [skipTok] using hkeep
    exact hskip
  · intro toks
    unfold topWords
    rw [List.length_map, List.length_take]
    exact min_le_left 5 _
  · intro toks
    exact pairwise_sortDesc _
  · intro toks w c hmem
    have hnd := buildFreq_keys_nodup toks
    have h1 := lookupNat_of_mem hnd hmem
    have h2 : lookupNat (buildFreq toks) w =
        (toks.filter fun t => !skipTok t).count w := by
      unfold buildFreq
      rw [freqLoop_eq_freqAll, freqAll_lookup]
      simp [lookupNat]
    rw [← h2]
    exact h1.symm
  · rfl

/-- Witness for C6: the term "deploy" appears in the top words of the
tokenized example corpus, so by the theorem it is neither a stop-word nor
shorter than 3 characters. -/
theorem c6_witness : ¬"deploy" ∈ stopWords ∧ 3 ≤ "deploy".length :=
  c6_summarizer_top_topics.1
    (tokenize (pyLower "deploy failed deploy rollback deploy failed"))
    "deploy" (by decide)

/-! ## C7: empty summary is omitted from the reply -/

theorem ne_of_take_two {s t : String} (h : s.data.take 2 ≠ t.data.take 2) :
    s ≠ t :=
  fun he => h (by rw [he])

theorem bullet_ne_summary (l t : String) : bulletLine l t ≠ "*Summary:*" := by
  apply ne_of_take_two
  have h1 : (bulletLine l t).data.take 2 = ['\t', '•'] := rfl
  rw [h1]
  decide

theorem header_ne_summary (q : String) :
    ("*Results for:* `" ++ q ++ "`\n") ≠ "*Summary:*" := by
  apply ne_of_take_two
  have h1 : ("*Results for:* `" ++ q ++ "`\n").data.take 2 = ['*', 'R'] := rfl
  rw [h1]
  decide

/-- Every successfully rendered item line is a bullet line. -/
theorem renderItem_shape {service : String} {jb cb : Option String} {item : J}
    {s : String} (h : renderItem service jb cb item = .ok s) :
    ∃ l t, s = bulletLine l t := by
  unfold renderItem at h
  by_cases h1 : service = "Slack"
  · rw [if_pos h1] at h
    rcases except_bind_ok.mp h with ⟨text, -, h⟩
    rcases except_bind_ok.mp h with ⟨link, -, h⟩
    exact ⟨link.pyStr, text.pyStr, (except_pure_ok.mp h).symm⟩
  · rw [if_neg h1] at h
    by_cases h2 : service = "Jira"
    · rw [if_pos h2] at h
      rcases except_bind_ok.mp h with ⟨key, -, h⟩
      rcases except_bind_ok.mp h with ⟨fields, -, h⟩
      rcases except_bind_ok.mp h with ⟨text, -, h⟩
      exact ⟨_, _, (except_pure_ok.mp h).symm⟩
    · rw [if_neg h2] at h
      by_cases h3 : service = "Confluence"
      · rw [if_pos h3] at h
        rcases except_bind_ok.mp h with ⟨text, -, h⟩
        rcases except_bind_ok.mp h with ⟨urlCond, -, h⟩
        rcases except_bind_ok.mp h with ⟨urlVal, -, h⟩
        exact ⟨_, _, (except_pure_ok.mp h).symm⟩
      · rw [if_neg h3] at h
        exact Except.noConfusion h

/-- Inversion for `List.mapM` over `Except`: every output element comes
from applying the function to some input element. -/
theorem mapM_ok_forall {α β : Type} {f : α → Except Unit β} :
    ∀ {xs : List α} {ys : List β}, xs.mapM f = .ok ys →
      ∀ y ∈ ys, ∃ x, x ∈ xs ∧ f x = .ok y := by
  intro xs
  induction xs with
  | nil =>
    intro ys h y hy
    rw [List.mapM_nil] at h
    have hn := except_pure_ok.mp h
    subst hn
    cases hy
  | cons x xs ih =>
    intro ys h y hy
    rw [List.mapM_cons] at h
    rcases except_bind_ok.mp h with ⟨b, hb, h⟩
    rcases except_bind_ok.mp h with ⟨bs, hbs, h⟩
    have hys := except_pure_ok.mp h
    subst hys
    rcases List.mem_cons.mp hy with h2 | h2
    · exact ⟨x, List.mem_cons_self x xs, h2 ▸ hb⟩
    · rcases ih hbs y h2 with ⟨a, ha, hfa⟩
      exact ⟨a, List.mem_cons_of_mem x ha, hfa⟩

/-- The lines of one group never include the bold summary header. -/
theorem groupLines_no_summary {jb cb : Option String} {g : Group}
    {ls : List String}
    (hsvc : g.service = "Slack" ∨ g.service = "Jira" ∨ g.service = "Confluence")
    (h : groupLines jb cb g = .ok ls) : ¬"*Summary:*" ∈ ls := by
  have hhead : ¬("*" ++ g.service ++ "*:") = "*Summary:*" := by
    rcases hsvc with h1 | h1 | h1 <;> rw [h1] <;> decide
  unfold groupLines at h
  by_cases ht : g.items.truthy
  · rw [if_pos ht] at h
    rcases except_bind_ok.mp h with ⟨items, -, h⟩
    rcases except_bind_ok.mp h with ⟨bullets, hbul, h⟩
    have hls := except_pure_ok.mp h
    subst hls
    intro hmem
    rcases List.mem_cons.mp hmem with h2 | h2
    · exact hhead h2.symm
    · rcases List.mem_append.mp h2 with h3 | h3
      · rcases mapM_ok_forall hbul _ h3 with ⟨item, -, hri⟩
        rcases renderItem_shape hri with ⟨l, t, hshape⟩
        exact bullet_ne_summary l t hshape.symm
      · exact absurd (List.mem_singleton.mp h3) (by decide)
  · rw [if_neg ht] at h
    have hls := except_pure_ok.mp h
    subst hls
    intro hmem
    rcases List.mem_cons.mp hmem with h2 | h2
    · exact hhead h2.symm
    · rcases List.mem_cons.mp h2 with h3 | h3
      · exact absurd h3 (by decide)
      · exact absurd (List.mem_singleton.mp h3) (by decide)

/-- The pre-summary message lines never include the bold summary header. -/
theorem buildMessageLines_no_summary {q : String} {jb cb : Option String}
    {gs : List Group} {lines : List String}
    (hsvc : ∀ g ∈ gs,
      g.service = "Slack" ∨ g.service = "Jira" ∨ g.service = "Confluence")
    (h : buildMessageLines q jb cb gs = .ok lines) : ¬"*Summary:*" ∈ lines := by
  unfold buildMessageLines at h
  rcases except_bind_ok.mp h with ⟨chunks, hch, h⟩
  have hl := except_pure_ok.mp h
  subst hl
  intro hmem
  rcases List.mem_cons.mp hmem with h2 | h2
  · exact header_ne_summary q h2.symm
  · rcases List.mem_flatten.mp h2 with ⟨chunk, hc1, hc2⟩
    rcases mapM_ok_forall hch chunk hc1 with ⟨g, hg, hgl⟩
    exact groupLines_no_summary (hsvc g hg) hgl hc2

/-- C7: when every token of the extracted, lower-cased, space-joined
corpus is a stop-word or shorter than 3 characters (in particular when
there are no tokens at all), the summarizer returns the empty string, and
the formatted reply contains no "*Summary:*" line. -/
theorem c7_stopword_only_corpus_empty_summary :
    ∀ (gs : List Group) (corpus : List String),
      extractTexts gs = .ok corpus →
      (∀ t ∈ tokenize (pyLower (String.intercalate " " corpus)),
        skipTok t = true) →
      summarize_results gs = .ok "" ∧
      ∀ (query : String) (jb cb : Option String) (lines : List String),
        (∀ g ∈ gs,
          g.service = "Slack" ∨ g.service = "Jira" ∨ g.service = "Confluence") →
        fullMessageLines query jb cb gs = .ok lines →
        ¬"*Summary:*" ∈ lines := by
  intro gs corpus hext htoks
  have hfreq : buildFreq (tokenize (pyLower (String.intercalate " " corpus))) = [] :=
    freqLoop_all_skip _ [] htoks
  have hsum : summarize_results gs = .ok "" := by
    unfold summarize_results
    rw [hext, except_ok_bind]
    simp [hfreq, except_pure_ok]
  refine ⟨hsum, ?_⟩
  intro query jb cb lines hsvc hfull
  unfold fullMessageLines at hfull
  rcases except_bind_ok.mp hfull with ⟨base, hbase, hfull⟩
  rw [hsum, except_ok_bind, if_pos rfl] at hfull
  have hl := except_pure_ok.mp hfull
  subst hl
  exact buildMessageLines_no_summary hsvc hbase

/-- Witness for C7: a single Slack message whose words are all stop-words
or shorter than 3 characters: the summary is empty and the reply lines
carry no summary header. -/
theorem c7_witness :
    summarize_results
      [⟨"Slack", J.arr [J.obj [("text", J.str "a of the to is")]]⟩] = .ok "" ∧
    ¬"*Summary:*" ∈
      ["*Results for:* `q`\n", "*Slack*:", "\t• <|a of the to is>", ""] :=
  ⟨(c7_stopword_only_corpus_empty_summary
      [⟨"Slack", J.arr [J.obj [("text", J.str "a of the to is")]]⟩]
      ["a of the to is"] rfl (by decide)).1,
   (c7_stopword_only_corpus_empty_summary
      [⟨"Slack", J.arr [J.obj [("text", J.str "a of the to is")]]⟩]
      ["a of the to is"] rfl (by decide)).2 "q" none none
      ["*Results for:* `q`\n", "*Slack*:", "\t• <|a of the to is>", ""]
      (by decide) rfl⟩

/-! ## C10: tie-break among equal frequencies is first-occurrence order -/

/-- C10: the summarizer is a pure function and its tie-break among
equal-frequency tokens is first-occurrence order: whenever two distinct
surviving tokens have the same count, the one whose first occurrence in
the filtered token stream comes earlier precedes the other in the rendered
top-words list (`freq` preserves insertion order and the sort by
descending count is stable). -/
theorem c10_tie_break_first_occurrence :
    ∀ (toks : List String) (w1 w2 : String) (c : Nat),
      w1 ≠ w2 →
      (toks.filter fun t => !skipTok t).count w1 = c →
      (toks.filter fun t => !skipTok t).count w2 = c →
      List.Sublist [w1, w2] (firstOccurs (toks.filter fun t => !skipTok t)) →
      w2 ∈ topWords toks →
      List.Sublist [w1, w2] (topWords toks) := by
  intro toks w1 w2 c hne hc1 hc2 hfo hw2
  have hkeys : (buildFreq toks).map Prod.fst =
      firstOccurs (toks.filter fun t => !skipTok t) := buildFreq_keys toks
  have hnd : ((buildFreq toks).map Prod.fst).Nodup := buildFreq_keys_nodup toks
  have hlookup : ∀ w : String, lookupNat (buildFreq toks) w =
      (toks.filter fun t => !skipTok t).count w := by
    intro w
    unfold buildFreq
    rw [freqLoop_eq_freqAll, freqAll_lookup]
    simp [lookupNat]
  have hfo2 : List.Sublist [w1, w2] ((buildFreq toks).map Prod.fst) := by
    rw [hkeys]
    exact hfo
  rcases sublist_map_pair hfo2 with ⟨p, q, hsub, hp1, hq1⟩
  have hpmem : p ∈ buildFreq toks := hsub.subset (by simp)
  have hqmem : q ∈ buildFreq toks := hsub.subset (by simp)
  have hp2 : p.2 = c := by
    rw [← lookupNat_of_mem hnd hpmem, hlookup, hp1, hc1]
  have hq2 : q.2 = c := by
    rw [← lookupNat_of_mem hnd hqmem, hlookup, hq1, hc2]
  have hsorted : List.Sublist [p, q] (sortDesc (buildFreq toks)) :=
    sortDesc_stable hsub (by rw [hp2, hq2])
  have hndp : (buildFreq toks).Nodup := List.Nodup.of_map _ hnd
  have hnds : (sortDesc (buildFreq toks)).Nodup :=
    ((sortDesc_perm _).nodup_iff).mpr hndp
  have hndkeys : ((sortDesc (buildFreq toks)).map Prod.fst).Nodup :=
    (((sortDesc_perm (buildFreq toks)).map Prod.fst).nodup_iff).mpr hnd
  unfold topWords at hw2 ⊢
  rcases List.mem_map.mp hw2 with ⟨q', hq', hq'1⟩
  have hq'sorted : q' ∈ sortDesc (buildFreq toks) := List.mem_of_mem_take hq'
  have hqsorted : q ∈ sortDesc (buildFreq toks) :=
    (sortDesc_perm _).mem_iff.mpr hqmem
  have hq'q : q' = q :=
    pair_eq_of_mem_nodup_keys hndkeys hq'sorted hqsorted (by rw [hq'1, hq1])
  have hqtake : q ∈ (sortDesc (buildFreq toks)).take 5 := hq'q ▸ hq'
  have htake : List.Sublist [p, q] ((sortDesc (buildFreq toks)).take 5) :=
    sublist_take_of_mem hnds hsorted 5 hqtake
  have hmap := htake.map Prod.fst
  rw [show [p, q].map Prod.fst = [p.1, q.1] from rfl, hp1, hq1] at hmap
  exact hmap

/-- Witness for C10: in the token list
`["bbb", "aaa", "bbb", "aaa", "ccc"]` the tokens "bbb" and "aaa" both
occur twice; "bbb" first occurs earlier and both reach the top words, so
"bbb" precedes "aaa" there. -/
theorem c10_witness :
    List.Sublist ["bbb", "aaa"] (topWords ["bbb", "aaa", "bbb", "aaa", "ccc"]) :=
  c10_tie_break_first_occurrence ["bbb", "aaa", "bbb", "aaa", "ccc"]
    "bbb" "aaa" 2 (by decide) (by decide) (by decide)
    (List.Sublist.cons₂ "bbb" (List.Sublist.cons₂ "aaa" (List.nil_sublist ["ccc"])))
    (by decide)

end CombinedSearch
